import Mathlib

/-!
Verification development for the admin authentication routes of the
Aethon_Plast repository (`src/server/routes/authRoutes.js`).

The route handlers are shallowly embedded as pure Lean functions over an
explicit store (a list of admin account records).  External capability
interfaces — the SHA-256 hex digest used for one-time codes and the bcrypt
hash/compare pair used for passwords — are passed in as function
parameters, exactly as the spec treats them (capability interfaces, not
reimplemented).  Timestamps are naturals (milliseconds); MongoDB `null`
timestamps are `Option.none`, and a `$gt: now` query condition on a `null`
field does not match, mirroring MongoDB semantics.  Environment variables
and settings fields are strings with `""` standing for an unset (falsy)
value, except where the JavaScript distinguishes `null` from `""` (the
`smtpSecure` override), which is modelled as `Option String`.
-/

/-- JavaScript `String.prototype.trim()`: drop whitespace from both ends,
modelled over the character list so the kernel can evaluate it. -/
def trimList (l : List Char) : List Char :=
  ((l.dropWhile Char.isWhitespace).reverse.dropWhile Char.isWhitespace).reverse

/-- `x.trim()` on a string. -/
def trimString (s : String) : String := String.mk (trimList s.data)

/-- Email normalisation used throughout the routes:
`String(x).trim().toLowerCase()`. -/
def normalizeEmail (s : String) : String :=
  String.mk ((trimList s.data).map Char.toLower)

/-- One admin account document (model `Admin`).  `loginVerificationExpiresAt`
and `resetPasswordExpiresAt` are nullable dates; the hash fields use `""`
for "absent", as the source does. -/
structure Account where
  id : String
  name : String
  email : String
  passwordHash : String
  isVerified : Bool
  loginVerificationCodeHash : String
  loginVerificationExpiresAt : Option Nat
  resetPasswordTokenHash : String
  resetPasswordExpiresAt : Option Nat
  deriving Repr, DecidableEq

/-- A MongoDB `{ field: { $gt: new Date() } }` condition: a `null` (absent)
date never matches; a stored date matches iff it is strictly after `now`. -/
def expiryAfter (e : Option Nat) (now : Nat) : Bool :=
  match e with
  | none => false
  | some t => decide (now < t)

/-- `doc.save()` after mutating the first document returned by a `findOne`
query: replace the first store element satisfying the query predicate. -/
def updateFirst (p : Account → Bool) (f : Account → Account) : List Account → List Account
  | [] => []
  | a :: rest => if p a then f a :: rest else a :: updateFirst p f rest

/-- `deleteOne({_id})`: remove the first store element satisfying the
predicate. -/
def removeFirst (p : Account → Bool) : List Account → List Account
  | [] => []
  | a :: rest => if p a then rest else a :: removeFirst p rest

/-- `const JWT_SECRET = process.env.JWT_SECRET || "secretkey"` (line 11). -/
def jwtSecret (envJwtSecret : String) : String :=
  if envJwtSecret = "" then "secretkey" else envJwtSecret

/-- `const LOGIN_CODE_TTL_MS = 10 * 60 * 1000` (line 12). -/
def loginCodeTtlMs : Nat := 10 * 60 * 1000

/-- A signed session token:
`jwt.sign({ email, role: "admin", id }, JWT_SECRET, { expiresIn: "1d" })`. -/
structure Token where
  email : String
  role : String
  id : String
  key : String
  expiresIn : String
  deriving Repr, DecidableEq

/-- The bcrypt capability interface (`bcrypt.hash(p, 10)` /
`bcrypt.compare(p, h)`).  Soundness of the pair (`compare p (hash p)`)
is assumed as an explicit hypothesis where a proof needs it. -/
structure Hasher where
  hash : String → String
  compare : String → String → Bool

/-- The `findOne({ email, loginVerificationExpiresAt: { $gt: new Date() } })`
query predicate of the verify-login handler (lines 467-470). -/
def loginLookup (email : String) (now : Nat) (a : Account) : Bool :=
  a.email == email && expiryAfter a.loginVerificationExpiresAt now

/-- The mutation applied to a matched account by the verify-login success
path (lines 480-482). -/
def clearLoginCode (a : Account) : Account :=
  { a with isVerified := true
           loginVerificationCodeHash := ""
           loginVerificationExpiresAt := none }

/-- Outcome of the verify-login handler. -/
inductive VerifyResult where
  | reject (status : Nat) (msg : String)
  | ok (newStore : List Account) (token : Token)
  deriving Repr, DecidableEq

/-- `POST /admin/verify-login` (lines 459-497).  `sha` is the SHA-256 hex
digest capability (`crypto.createHash("sha256").update(code).digest("hex")`). -/
def verifyLogin (sha : String → String) (envJwt : String) (store : List Account)
    (rawEmail rawCode : String) (now : Nat) : VerifyResult :=
  let email := normalizeEmail rawEmail
  let code := trimString rawCode
  if email = "" ∨ code = "" then
    .reject 400 "Email and verification code are required"
  else
    match store.find? (loginLookup email now) with
    | none => .reject 400 "Invalid or expired verification code"
    | some admin =>
      if sha code = admin.loginVerificationCodeHash then
        .ok (updateFirst (loginLookup email now) clearLoginCode store)
          { email := admin.email, role := "admin", id := admin.id
            key := jwtSecret envJwt, expiresIn := "1d" }
      else .reject 400 "Invalid or expired verification code"

/-! ### List helper lemmas

A successful `findOne` splits the store into a clean left part, the matched
document and the rest; `save` (modelled by `updateFirst`) rewrites exactly
the matched position. -/

theorem find?_decomp {α : Type} {p : α → Bool} {l : List α} {a : α}
    (h : l.find? p = some a) :
    ∃ l₁ l₂, l = l₁ ++ a :: l₂ ∧ ∀ x ∈ l₁, p x = false := by
  induction l with
  | nil => simp at h
  | cons b rest ih =>
    rw [List.find?_cons] at h
    by_cases hb : p b
    · simp only [hb, cond_true, Option.some.injEq] at h
      exact ⟨[], rest, by simp [h], by simp⟩
    · simp only [Bool.not_eq_true] at hb
      simp only [hb, cond_false] at h
      obtain ⟨l₁, l₂, rfl, hl₁⟩ := ih h
      refine ⟨b :: l₁, l₂, rfl, ?_⟩
      intro x hx
      rcases List.mem_cons.mp hx with rfl | hx
      · exact hb
      · exact hl₁ x hx

theorem updateFirst_append_middle {p : Account → Bool} {f : Account → Account}
    {l₁ : List Account} {a : Account} {l₂ : List Account}
    (h : ∀ x ∈ l₁, p x = false) (ha : p a = true) :
    updateFirst p f (l₁ ++ a :: l₂) = l₁ ++ f a :: l₂ := by
  induction l₁ with
  | nil => simp [updateFirst, ha]
  | cons b rest ih =>
    have hb : p b = false := h b (List.mem_cons_self b rest)
    simp only [List.cons_append, updateFirst, hb]
    simp only [Bool.false_eq_true, if_false, List.cons.injEq, true_and]
    exact ih fun x hx => h x (List.mem_cons_of_mem b hx)

theorem find?_append_middle {α : Type} {q : α → Bool} {l₁ : List α} {a : α}
    {l₂ : List α} (h : ∀ x ∈ l₁, q x = false) (ha : q a = true) :
    (l₁ ++ a :: l₂).find? q = some a := by
  induction l₁ with
  | nil => simp [List.find?_cons, ha]
  | cons b rest ih =>
    have hb : q b = false := h b (List.mem_cons_self b rest)
    simp only [List.cons_append, List.find?_cons, hb, cond_false]
    exact ih fun x hx => h x (List.mem_cons_of_mem b hx)

theorem find?_congr_middle {α : Type} {q : α → Bool} {l₁ l₂ : List α} {a b : α}
    (ha : q a = false) (hb : q b = false) :
    (l₁ ++ a :: l₂).find? q = (l₁ ++ b :: l₂).find? q := by
  induction l₁ with
  | nil => simp [List.find?_cons, ha, hb]
  | cons c rest ih =>
    simp only [List.cons_append, List.find?_cons]
    cases q c <;> simp [ih]

theorem forall₂_refl_of {α : Type} {R : α → α → Prop} (hR : ∀ a, R a a) :
    ∀ l : List α, List.Forall₂ R l l
  | [] => List.Forall₂.nil
  | a :: rest => List.Forall₂.cons (hR a) (forall₂_refl_of hR rest)

theorem forall₂_middle {α : Type} {R : α → α → Prop} (hR : ∀ a, R a a)
    {a b : α} (hab : R a b) :
    ∀ l₁ l₂ : List α, List.Forall₂ R (l₁ ++ a :: l₂) (l₁ ++ b :: l₂)
  | [], l₂ => List.Forall₂.cons hab (forall₂_refl_of hR l₂)
  | c :: rest, l₂ => List.Forall₂.cons (hR c) (forall₂_middle hR hab rest l₂)

/-- With non-empty, already-normalised inputs the verify-login handler
reduces to its lookup/compare core (lines 467-493). -/
theorem verifyLogin_eq (sha : String → String) (envJwt : String)
    (store : List Account) (email code : String) (now : Nat)
    (hemail : normalizeEmail email = email) (hcode : trimString code = code)
    (hne : email ≠ "") (hnc : code ≠ "") :
    verifyLogin sha envJwt store email code now =
      (match store.find? (loginLookup email now) with
       | none => VerifyResult.reject 400 "Invalid or expired verification code"
       | some admin =>
         if sha code = admin.loginVerificationCodeHash then
           VerifyResult.ok (updateFirst (loginLookup email now) clearLoginCode store)
             { email := admin.email, role := "admin", id := admin.id
               key := jwtSecret envJwt, expiresIn := "1d" }
         else VerifyResult.reject 400 "Invalid or expired verification code") := by
  simp only [verifyLogin, hemail, hcode]
  rw [if_neg (by simp [hne, hnc])]

/-- C1: for non-empty normalised email and non-empty code, verify-login
succeeds iff some stored account has that email, an unexpired login-code
expiry, and a stored login-code hash equal to the hash of the submitted
code; every failing cause yields the same 400 "Invalid or expired
verification code" response; and success updates exactly the matched
account (verified, code hash and expiry cleared) and issues the session
token for it. -/
theorem verifyLogin_success_iff (sha : String → String) (envJwt : String)
    (store : List Account) (email code : String) (now : Nat)
    (hemail : normalizeEmail email = email) (hcode : trimString code = code)
    (hne : email ≠ "") (hnc : code ≠ "")
    (hnodup : (store.map Account.email).Nodup) :
    ((∃ ns tok, verifyLogin sha envJwt store email code now = .ok ns tok) ↔
      ∃ a ∈ store, a.email = email ∧
        expiryAfter a.loginVerificationExpiresAt now = true ∧
        a.loginVerificationCodeHash = sha code)
    ∧ ((¬ ∃ a ∈ store, a.email = email ∧
          expiryAfter a.loginVerificationExpiresAt now = true ∧
          a.loginVerificationCodeHash = sha code) →
        verifyLogin sha envJwt store email code now =
          .reject 400 "Invalid or expired verification code")
    ∧ (∀ ns tok, verifyLogin sha envJwt store email code now = .ok ns tok →
        ∃ l₁ a l₂, store = l₁ ++ a :: l₂ ∧ ns = l₁ ++ clearLoginCode a :: l₂ ∧
          tok = { email := a.email, role := "admin", id := a.id
                  key := jwtSecret envJwt, expiresIn := "1d" }) := by
  have hv := verifyLogin_eq sha envJwt store email code now hemail hcode hne hnc
  refine ⟨⟨?_, ?_⟩, ?_, ?_⟩
  · rintro ⟨ns, tok, hok⟩
    rw [hv] at hok
    split at hok
    · exact absurd hok (by simp)
    · next admin hfind =>
      split at hok
      · next hh =>
        have hmem := List.mem_of_find?_eq_some hfind
        have hp := List.find?_some hfind
        simp only [loginLookup, Bool.and_eq_true, beq_iff_eq] at hp
        exact ⟨admin, hmem, hp.1, hp.2, hh.symm⟩
      · exact absurd hok (by simp)
  · rintro ⟨a, hmem, hae, hexp, hhash⟩
    have hpa : loginLookup email now a = true := by
      simp [loginLookup, hae, hexp]
    have hsome : (store.find? (loginLookup email now)).isSome :=
      List.find?_isSome.mpr ⟨a, hmem, hpa⟩
    obtain ⟨a', hfind⟩ := Option.isSome_iff_exists.mp hsome
    have hp' := List.find?_some hfind
    have hmem' := List.mem_of_find?_eq_some hfind
    simp only [loginLookup, Bool.and_eq_true, beq_iff_eq] at hp'
    have haa : a' = a :=
      List.inj_on_of_nodup_map hnodup hmem' hmem (by rw [hp'.1, hae])
    subst haa
    rw [hv, hfind]
    simp only
    rw [if_pos hhash.symm]
    exact ⟨_, _, rfl⟩
  · intro hnone
    rw [hv]
    cases hfind : store.find? (loginLookup email now) with
    | none => rfl
    | some admin =>
      have hp := List.find?_some hfind
      have hmem := List.mem_of_find?_eq_some hfind
      simp only [loginLookup, Bool.and_eq_true, beq_iff_eq] at hp
      have hh : ¬ (sha code = admin.loginVerificationCodeHash) := fun hh =>
        hnone ⟨admin, hmem, hp.1, hp.2, hh.symm⟩
      simp only
      rw [if_neg hh]
  · intro ns tok hok
    rw [hv] at hok
    split at hok
    · exact absurd hok (by simp)
    · next admin hfind =>
      split at hok
      · next hh =>
        obtain ⟨l₁, l₂, hsplit, hclean⟩ := find?_decomp hfind
        have hpa := List.find?_some hfind
        injection hok with h1 h2
        refine ⟨l₁, admin, l₂, hsplit, ?_, h2.symm⟩
        rw [← h1, hsplit, updateFirst_append_middle hclean hpa]
      · exact absurd hok (by simp)

/-- Sample data shared by the concrete witnesses below. -/
def shaTest : String → String := fun s => "#" ++ s

/-- A pending (unverified, code-issued) account used in witnesses. -/
def acctA : Account :=
  { id := "1", name := "Root", email := "admin@x.io", passwordHash := "bc-pw"
    isVerified := false, loginVerificationCodeHash := "#123456"
    loginVerificationExpiresAt := some 1000, resetPasswordTokenHash := "#777777"
    resetPasswordExpiresAt := some 2000 }

/-- Witness for C1 at a concrete store: the pending account's code verifies. -/
theorem verifyLogin_success_iff_witness :
    ∃ ns tok, verifyLogin shaTest "" [acctA] "admin@x.io" "123456" 0 = .ok ns tok :=
  (verifyLogin_success_iff shaTest "" [acctA] "admin@x.io" "123456" 0
    (by decide) (by decide) (by decide) (by decide) (by decide)).1.mpr
    ⟨acctA, by decide, by decide, by decide, by decide⟩

/-- C2: once verify-login succeeds for an email/code pair, an immediately
following verify-login for the same email and code (indeed, at any later
query time) is rejected: the success path cleared the code hash and set the
expiry to null, so no account matches the strictly-after-now lookup. -/
theorem verifyLogin_code_is_single_use (sha : String → String) (envJwt : String)
    (store : List Account) (email code : String) (now now' : Nat)
    (ns : List Account) (tok : Token)
    (hnodup : (store.map Account.email).Nodup)
    (hok : verifyLogin sha envJwt store email code now = .ok ns tok) :
    verifyLogin sha envJwt ns email code now' =
      .reject 400 "Invalid or expired verification code" := by
  simp only [verifyLogin] at hok ⊢
  by_cases hcond : normalizeEmail email = "" ∨ trimString code = ""
  · rw [if_pos hcond] at hok
    exact absurd hok (by simp)
  · rw [if_neg hcond] at hok ⊢
    split at hok
    · exact absurd hok (by simp)
    · next admin hfind =>
      split at hok
      · next hh =>
        have hpa := List.find?_some hfind
        obtain ⟨l₁, l₂, hsplit, hclean⟩ := find?_decomp hfind
        subst hsplit
        have hns : ns = l₁ ++ clearLoginCode admin :: l₂ := by
          injection hok with h1 h2
          rw [← h1, updateFirst_append_middle hclean hpa]
        have hae : admin.email = normalizeEmail email := by
          simp only [loginLookup, Bool.and_eq_true, beq_iff_eq] at hpa
          exact hpa.1
        rw [List.map_append, List.map_cons] at hnodup
        have hparts := List.nodup_append.mp hnodup
        have hnotl₂ : admin.email ∉ l₂.map Account.email :=
          (List.nodup_cons.mp hparts.2.1).1
        have hnotl₁ : admin.email ∉ l₁.map Account.email := fun hm =>
          hparts.2.2 hm (List.mem_cons_self _ _)
        have hfind' :
            ns.find? (loginLookup (normalizeEmail email) now') = none := by
          rw [List.find?_eq_none]
          intro x hx
          rw [hns] at hx
          rcases List.mem_append.mp hx with hx₁ | hx₂
          · intro hpx
            simp only [loginLookup, Bool.and_eq_true, beq_iff_eq] at hpx
            exact hnotl₁ (by
              rw [← hae] at hpx
              exact hpx.1 ▸ List.mem_map_of_mem Account.email hx₁)
          · rcases List.mem_cons.mp hx₂ with rfl | hx₃
            · simp [loginLookup, clearLoginCode, expiryAfter]
            · intro hpx
              simp only [loginLookup, Bool.and_eq_true, beq_iff_eq] at hpx
              exact hnotl₂ (by
                rw [← hae] at hpx
                exact hpx.1 ▸ List.mem_map_of_mem Account.email hx₃)
        rw [hfind']
      · exact absurd hok (by simp)

/-- Witness for C2: the first verification consumes the code. -/
theorem verifyLogin_code_is_single_use_witness :
    verifyLogin shaTest "" [clearLoginCode acctA] "admin@x.io" "123456" 0 =
      .reject 400 "Invalid or expired verification code" :=
  verifyLogin_code_is_single_use shaTest "" [acctA] "admin@x.io" "123456" 0 0
    [clearLoginCode acctA]
    { email := "admin@x.io", role := "admin", id := "1"
      key := "secretkey", expiresIn := "1d" }
    (by decide) (by decide)

/-- Response payload of `formatVerificationResponse`: a message plus an
optional echoed raw code. -/
structure VerResponse where
  message : String
  verificationCode : Option String
  deriving Repr, DecidableEq

/-- `formatVerificationResponse(baseMessage, codeSent, code)` (lines 212-225).
The production check is `process.env.NODE_ENV !== "production"`. -/
def formatVerificationResponse (nodeEnv : String) (baseMessage : String)
    (codeSent : Bool) (code : String) : VerResponse :=
  if codeSent then
    { message := baseMessage, verificationCode := none }
  else if nodeEnv ≠ "production" then
    { message := "SMTP is not configured. Use this verification code locally."
      verificationCode := some code }
  else
    { message := "Email is not configured. Set SMTP credentials in server .env."
      verificationCode := none }

/-- The raw-code content of the signup response (lines 306-325): when the
send failed and the bypass fired (`REQUIRE_ADMIN_EMAIL_VERIFICATION` off)
a fixed no-code message is returned, otherwise the response spreads
`formatVerificationResponse`. -/
def signupResponseCode (nodeEnv : String) (requireVerification sent : Bool)
    (code : String) : Option String :=
  if !sent && !requireVerification then none
  else (formatVerificationResponse nodeEnv
    "Verification code sent to your email." sent code).verificationCode

/-- The raw-code content of the resend-verification response (lines 386-396). -/
def resendResponseCode (nodeEnv : String) (requireVerification sent : Bool)
    (code : String) : Option String :=
  if !sent && !requireVerification then none
  else (formatVerificationResponse nodeEnv
    "Verification code sent to your email." sent code).verificationCode

/-- The raw-code content of the login response on the unverified branch
(lines 421-444); the bypass branch returns a token with a fixed message. -/
def loginResponseCode (nodeEnv : String) (requireVerification sent : Bool)
    (code : String) : Option String :=
  if !sent && !requireVerification then none
  else (formatVerificationResponse nodeEnv
    "Verification required. Code sent to your email." sent code).verificationCode

/-- Response of the forgot-password handler from the delivery point on
(lines 523-557): status, message, and the optional echoed reset code. -/
structure ForgotResponse where
  status : Nat
  message : String
  resetCode : Option String
  deriving Repr, DecidableEq

/-- The branch structure of `POST /admin/forgot-password` after the reset
code is stored (lines 530-557), given the outcome booleans of the two
delivery paths. -/
def forgotPasswordResponse (nodeEnv : String)
    (sentViaResend transporterConfigured : Bool) (resetCode : String) :
    ForgotResponse :=
  if sentViaResend then
    { status := 200, message := "If this email exists, a reset code has been sent."
      resetCode := none }
  else if !transporterConfigured then
    if nodeEnv ≠ "production" then
      { status := 200, message := "Email is not configured. Use this reset code locally."
        resetCode := some resetCode }
    else
      { status := 500, message := "Email is not configured. Set SMTP credentials in server .env."
        resetCode := none }
  else
    { status := 200, message := "If this email exists, a reset code has been sent."
      resetCode := none }

/-- C3: in production mode no signup, login, resend-verification or
forgot-password response carries the raw code (and the responses are
independent of the generated code — two runs differing only in the code
produce identical responses); outside production a code appears only on the
branch where no delivery path succeeded. -/
theorem production_never_echoes_code (msg code code₂ : String)
    (requireVerification sent sentViaResend transporterConfigured : Bool) :
    ((formatVerificationResponse "production" msg sent code).verificationCode = none
      ∧ signupResponseCode "production" requireVerification sent code = none
      ∧ resendResponseCode "production" requireVerification sent code = none
      ∧ loginResponseCode "production" requireVerification sent code = none
      ∧ (forgotPasswordResponse "production" sentViaResend transporterConfigured
          code).resetCode = none)
    ∧ (formatVerificationResponse "production" msg sent code =
        formatVerificationResponse "production" msg sent code₂)
    ∧ (forgotPasswordResponse "production" sentViaResend transporterConfigured code =
        forgotPasswordResponse "production" sentViaResend transporterConfigured code₂)
    ∧ (∀ nodeEnv c, (formatVerificationResponse nodeEnv msg sent
        code).verificationCode = some c →
        nodeEnv ≠ "production" ∧ sent = false ∧ c = code)
    ∧ (∀ nodeEnv c, (forgotPasswordResponse nodeEnv sentViaResend
        transporterConfigured code).resetCode = some c →
        nodeEnv ≠ "production" ∧ sentViaResend = false ∧
          transporterConfigured = false ∧ c = code) := by
  refine ⟨⟨?_, ?_, ?_, ?_, ?_⟩, ?_, ?_, ?_, ?_⟩
  · cases sent <;> simp [formatVerificationResponse]
  · cases sent <;> cases requireVerification <;>
      simp [signupResponseCode, formatVerificationResponse]
  · cases sent <;> cases requireVerification <;>
      simp [resendResponseCode, formatVerificationResponse]
  · cases sent <;> cases requireVerification <;>
      simp [loginResponseCode, formatVerificationResponse]
  · cases sentViaResend <;> cases transporterConfigured <;>
      simp [forgotPasswordResponse]
  · cases sent <;> simp [formatVerificationResponse]
  · cases sentViaResend <;> cases transporterConfigured <;>
      simp [forgotPasswordResponse]
  · intro nodeEnv c h
    by_cases hprod : nodeEnv = "production"
    · subst hprod
      cases sent <;> simp [formatVerificationResponse] at h
    · cases sent <;>
        simp [formatVerificationResponse, hprod] at h
      exact ⟨hprod, rfl, h.symm⟩
  · intro nodeEnv c h
    by_cases hprod : nodeEnv = "production"
    · subst hprod
      cases sentViaResend <;> cases transporterConfigured <;>
        simp [forgotPasswordResponse] at h
    · cases sentViaResend <;> cases transporterConfigured <;>
        simp [forgotPasswordResponse, hprod] at h
      exact ⟨hprod, rfl, rfl, h.symm⟩

/-- Witness for C3 at a concrete non-production run where the code is
echoed: the theorem pins the echo to the no-delivery, non-production case. -/
theorem production_never_echoes_code_witness :
    ("dev" : String) ≠ "production" ∧ false = false ∧
      ("123456" : String) = "123456" :=
  (production_never_echoes_code "m" "123456" "999999" true false false
    false).2.2.2.1 "dev" "123456" (by decide)

/-- `handleMissingSmtpVerification(admin)` (lines 203-210), parameterised by
the `REQUIRE_ADMIN_EMAIL_VERIFICATION` policy flag.  Result: the reported
bypass flag, the resulting account document, and whether `save` ran. -/
def handleMissingSmtpVerification (requireVerification : Bool)
    (admin : Account) : Bool × Account × Bool :=
  if requireVerification then (false, admin, false)
  else (true, clearLoginCode admin, true)

/-- C5: with the require-verification policy off the missing-transport
bypass verifies the account, clears the login-code hash and expiry,
persists, and reports true; with the policy on it reports false and leaves
the account untouched and unsaved. -/
theorem handleMissingSmtp_bypass_spec (admin : Account) :
    handleMissingSmtpVerification true admin = (false, admin, false)
    ∧ handleMissingSmtpVerification false admin =
        (true, clearLoginCode admin, true)
    ∧ (clearLoginCode admin).isVerified = true
    ∧ (clearLoginCode admin).loginVerificationCodeHash = ""
    ∧ (clearLoginCode admin).loginVerificationExpiresAt = none
    ∧ (clearLoginCode admin).id = admin.id
    ∧ (clearLoginCode admin).email = admin.email
    ∧ (clearLoginCode admin).passwordHash = admin.passwordHash := by
  refine ⟨rfl, rfl, rfl, rfl, rfl, rfl, rfl, rfl⟩

/-- Outcome of the reset-password handler; the (possibly updated) store is
returned alongside. -/
inductive ResetResult where
  | reject (status : Nat) (msg : String)
  | ok
  deriving Repr, DecidableEq

/-- The `findOne({ email, resetPasswordTokenHash, resetPasswordExpiresAt:
{ $gt: new Date() } })` query predicate (lines 580-584). -/
def resetLookup (email tokenHash : String) (now : Nat) (a : Account) : Bool :=
  a.email == email && a.resetPasswordTokenHash == tokenHash &&
    expiryAfter a.resetPasswordExpiresAt now

/-- The mutation of the reset-password success path (lines 590-592). -/
def applyPasswordReset (newHash : String) (a : Account) : Account :=
  { a with passwordHash := newHash
           resetPasswordTokenHash := ""
           resetPasswordExpiresAt := none }

/-- `POST /admin/reset-password` (lines 563-599).  `H.hash` stands for
`bcrypt.hash(newPassword, 10)`. -/
def resetPassword (sha : String → String) (H : Hasher) (store : List Account)
    (rawEmail rawToken rawCode newPassword : String) (now : Nat) :
    ResetResult × List Account :=
  let email := normalizeEmail rawEmail
  let token := trimString rawToken
  let code := trimString rawCode
  if email = "" ∨ newPassword = "" ∨ (token = "" ∧ code = "") then
    (.reject 400 "Email, reset code (or token), and new password are required",
      store)
  else if newPassword.length < 6 then
    (.reject 400 "Password must be at least 6 characters", store)
  else
    let resetValue := if code = "" then token else code
    let tokenHash := sha resetValue
    match store.find? (resetLookup email tokenHash now) with
    | none => (.reject 400 "Invalid or expired reset code", store)
    | some _ =>
      (.ok, updateFirst (resetLookup email tokenHash now)
        (applyPasswordReset (H.hash newPassword)) store)

/-- C8: a validation-passing reset request whose secret hashes to something
other than the stored reset-token hash of the email's account, or whose
stored reset-token expiry is not strictly after now, is rejected with the
uniform invalid-or-expired error and the store is returned unchanged. -/
theorem resetPassword_reject_leaves_store (sha : String → String) (H : Hasher)
    (store : List Account) (email token code newPassword : String) (now : Nat)
    (hemail : normalizeEmail email = email) (hne : email ≠ "")
    (htok : trimString token = token) (hcode : trimString code = code)
    (hnp : ¬ newPassword = "") (hlen : ¬ newPassword.length < 6)
    (hval : ¬ (token = "" ∧ code = ""))
    (hnomatch : ∀ a ∈ store, a.email = email →
      a.resetPasswordTokenHash ≠ sha (if code = "" then token else code) ∨
        expiryAfter a.resetPasswordExpiresAt now = false) :
    resetPassword sha H store email token code newPassword now =
      (.reject 400 "Invalid or expired reset code", store) := by
  simp only [resetPassword, hemail, htok, hcode]
  rw [if_neg (fun h => h.elim hne fun h₂ => h₂.elim hnp hval), if_neg hlen]
  have hfind : store.find?
      (resetLookup email (sha (if code = "" then token else code)) now) =
        none := by
    rw [List.find?_eq_none]
    intro a ha hpa
    simp only [resetLookup, Bool.and_eq_true, beq_iff_eq] at hpa
    rcases hnomatch a ha hpa.1.1 with h | h
    · exact h hpa.1.2
    · rw [hpa.2] at h
      exact absurd h (by decide)
  rw [hfind]

/-- The account used in witnesses with a pending password reset. -/
def acctB : Account :=
  { id := "2", name := "Ops", email := "ops@x.io", passwordHash := "bc-old"
    isVerified := true, loginVerificationCodeHash := ""
    loginVerificationExpiresAt := none, resetPasswordTokenHash := "#654321"
    resetPasswordExpiresAt := some 500 }

/-- Witness for C8: an expired reset token (stored expiry 500, queried at
time 900) is rejected and the store is untouched. -/
theorem resetPassword_reject_leaves_store_witness :
    resetPassword shaTest ⟨fun s => "bc-" ++ s, fun p h => ("bc-" ++ p) == h⟩
      [acctB] "ops@x.io" "" "654321" "newpass1" 900 =
      (.reject 400 "Invalid or expired reset code", [acctB]) :=
  resetPassword_reject_leaves_store shaTest
    ⟨fun s => "bc-" ++ s, fun p h => ("bc-" ++ p) == h⟩
    [acctB] "ops@x.io" "" "654321" "newpass1" 900
    (by decide) (by decide) (by decide) (by decide) (by decide) (by decide)
    (by decide) (by decide)

/-- The fields the reset-password success path must not touch: everything
except the password hash and the reset-token hash/expiry. -/
def preservedByReset (a b : Account) : Prop :=
  a.id = b.id ∧ a.email = b.email ∧ a.name = b.name ∧
    a.isVerified = b.isVerified ∧
    a.loginVerificationCodeHash = b.loginVerificationCodeHash ∧
    a.loginVerificationExpiresAt = b.loginVerificationExpiresAt

/-- The fields the verify-login success path must not touch: everything
except the verified flag and the login-code hash/expiry. -/
def preservedByVerify (a b : Account) : Prop :=
  a.id = b.id ∧ a.email = b.email ∧ a.name = b.name ∧
    a.passwordHash = b.passwordHash ∧
    a.resetPasswordTokenHash = b.resetPasswordTokenHash ∧
    a.resetPasswordExpiresAt = b.resetPasswordExpiresAt

/-- C6: completing a password reset leaves every account's login-code hash
and expiry (and identity, name, verified flag) exactly as they were;
completing login-code verification leaves every account's reset-token hash
and expiry (and identity, name, password hash) untouched. -/
theorem lifecycles_do_not_interfere (sha : String → String) (H : Hasher)
    (envJwt : String) (store : List Account)
    (email token code newPassword rawE rawC : String) (now : Nat)
    (ns ns' : List Account) (tok : Token) :
    (resetPassword sha H store email token code newPassword now = (.ok, ns) →
      List.Forall₂ preservedByReset store ns)
    ∧ (verifyLogin sha envJwt store rawE rawC now = .ok ns' tok →
      List.Forall₂ preservedByVerify store ns') := by
  constructor
  · intro h
    simp only [resetPassword] at h
    split at h
    · exact absurd h (by simp)
    · split at h
      · exact absurd h (by simp)
      · split at h
        · exact absurd h (by simp)
        · next a hfind =>
          simp only [Prod.mk.injEq, true_and] at h
          obtain ⟨l₁, l₂, hsplit, hclean⟩ := find?_decomp hfind
          have hpa := List.find?_some hfind
          subst hsplit
          rw [← h, updateFirst_append_middle hclean hpa]
          exact forall₂_middle (fun x => ⟨rfl, rfl, rfl, rfl, rfl, rfl⟩)
            (by simp [preservedByReset, applyPasswordReset]) l₁ l₂
  · intro h
    simp only [verifyLogin] at h
    by_cases hcond : normalizeEmail rawE = "" ∨ trimString rawC = ""
    · rw [if_pos hcond] at h
      exact absurd h (by simp)
    · rw [if_neg hcond] at h
      split at h
      · exact absurd h (by simp)
      · next admin hfind =>
        split at h
        · next hh =>
          injection h with h1 h2
          obtain ⟨l₁, l₂, hsplit, hclean⟩ := find?_decomp hfind
          have hpa := List.find?_some hfind
          subst hsplit
          rw [← h1, updateFirst_append_middle hclean hpa]
          exact forall₂_middle (fun x => ⟨rfl, rfl, rfl, rfl, rfl, rfl⟩)
            (by simp [preservedByVerify, clearLoginCode]) l₁ l₂
        · exact absurd h (by simp)

/-- Witness for C6: a concrete successful verification leaves the reset
fields of the store's single account in place. -/
theorem lifecycles_do_not_interfere_witness :
    List.Forall₂ preservedByVerify [acctA] [clearLoginCode acctA] :=
  (lifecycles_do_not_interfere shaTest
    ⟨fun s => "bc-" ++ s, fun p h => ("bc-" ++ p) == h⟩ "" [acctA]
    "x" "y" "z" "pw123456" "admin@x.io" "123456" 0 [] [clearLoginCode acctA]
    { email := "admin@x.io", role := "admin", id := "1"
      key := "secretkey", expiresIn := "1d" }).2 (by decide)

theorem removeFirst_append_middle {p : Account → Bool}
    {l₁ : List Account} {a : Account} {l₂ : List Account}
    (h : ∀ x ∈ l₁, p x = false) (ha : p a = true) :
    removeFirst p (l₁ ++ a :: l₂) = l₁ ++ l₂ := by
  induction l₁ with
  | nil => simp [removeFirst, ha]
  | cons b rest ih =>
    have hb : p b = false := h b (List.mem_cons_self b rest)
    simp only [List.cons_append, removeFirst, hb]
    simp only [Bool.false_eq_true, if_false, List.cons.injEq, true_and]
    exact ih fun x hx => h x (List.mem_cons_of_mem b hx)

/-- JavaScript `String.prototype.toLowerCase()` (no trimming). -/
def lowerString (s : String) : String := String.mk (s.data.map Char.toLower)

/-- Outcome of the delete-admin handler. -/
inductive DeleteResult where
  | reject (status : Nat) (msg : String)
  | ok
  deriving Repr, DecidableEq

/-- `DELETE /admins/:id` (lines 240-271).  `rid`/`re` are the authenticated
requester's id and raw email (`req.admin`); the requester email is trimmed
and lowercased, the target email only lowercased, as in the source. -/
def deleteAdmin (store : List Account) (targetId requesterId requesterEmailRaw : String) :
    DeleteResult × List Account :=
  if targetId = "" then (.reject 400 "Admin id is required", store)
  else if store.length ≤ 1 then
    (.reject 400 "Cannot delete the last admin account", store)
  else
    match store.find? (fun a => a.id == targetId) with
    | none => (.reject 404 "Admin not found", store)
    | some target =>
      let requesterEmail := normalizeEmail requesterEmailRaw
      if (requesterId ≠ "" ∧ requesterId = target.id) ∨
          (requesterEmail ≠ "" ∧ requesterEmail = lowerString target.email) then
        (.reject 400 "You cannot delete your own admin account", store)
      else (.ok, removeFirst (fun a => a.id == target.id) store)

/-- C7: deleting is rejected (store untouched) when only one account
exists; rejected when the target matches the requester's id or email;
otherwise it removes exactly the targeted account; and a successful
deletion always leaves at least one account (the count never reaches
zero). -/
theorem deleteAdmin_spec (store : List Account) (tid rid re : String) :
    (store.length = 1 → ∀ r ns, deleteAdmin store tid rid re = (r, ns) →
      r ≠ .ok ∧ ns = store)
    ∧ (∀ target, tid ≠ "" → ¬ store.length ≤ 1 →
        store.find? (fun a => a.id == tid) = some target →
        ((rid ≠ "" ∧ rid = target.id) ∨
          (normalizeEmail re ≠ "" ∧ normalizeEmail re = lowerString target.email)) →
        deleteAdmin store tid rid re =
          (.reject 400 "You cannot delete your own admin account", store))
    ∧ (∀ target, tid ≠ "" → ¬ store.length ≤ 1 →
        store.find? (fun a => a.id == tid) = some target →
        ¬ ((rid ≠ "" ∧ rid = target.id) ∨
          (normalizeEmail re ≠ "" ∧ normalizeEmail re = lowerString target.email)) →
        ∃ l₁ l₂, store = l₁ ++ target :: l₂ ∧
          deleteAdmin store tid rid re = (.ok, l₁ ++ l₂) ∧
          ∀ x ∈ l₁, (x.id == tid) = false)
    ∧ (∀ ns, deleteAdmin store tid rid re = (.ok, ns) →
        ns.length + 1 = store.length ∧ 1 ≤ ns.length) := by
  refine ⟨?_, ?_, ?_, ?_⟩
  · intro hlen1 r ns h
    simp only [deleteAdmin] at h
    by_cases htid : tid = ""
    · rw [if_pos htid] at h
      injection h with h1 h2
      exact ⟨by rw [← h1]; simp, h2.symm⟩
    · rw [if_neg htid, if_pos (by omega)] at h
      injection h with h1 h2
      exact ⟨by rw [← h1]; simp, h2.symm⟩
  · intro target htid hlen hfind hself
    simp only [deleteAdmin]
    rw [if_neg htid, if_neg hlen, hfind]
    simp only
    rw [if_pos hself]
  · intro target htid hlen hfind hnself
    obtain ⟨l₁, l₂, hsplit, hclean⟩ := find?_decomp hfind
    have htidEq : target.id = tid := by
      simpa [beq_iff_eq] using List.find?_some hfind
    refine ⟨l₁, l₂, hsplit, ?_, hclean⟩
    simp only [deleteAdmin]
    rw [if_neg htid, if_neg hlen, hfind]
    simp only
    rw [if_neg hnself, Prod.mk.injEq]
    refine ⟨rfl, ?_⟩
    rw [hsplit, removeFirst_append_middle
      (fun x hx => by rw [htidEq]; exact hclean x hx) (by simp)]
  · intro ns h
    simp only [deleteAdmin] at h
    by_cases htid : tid = ""
    · rw [if_pos htid] at h
      exact absurd h (by simp)
    · rw [if_neg htid] at h
      by_cases hlen : store.length ≤ 1
      · rw [if_pos hlen] at h
        exact absurd h (by simp)
      · rw [if_neg hlen] at h
        cases hfind : store.find? (fun a => a.id == tid) with
        | none =>
          rw [hfind] at h
          exact absurd h (by simp)
        | some target =>
          rw [hfind] at h
          simp only at h
          split at h
          · exact absurd h (by simp)
          · obtain ⟨l₁, l₂, hsplit, hclean⟩ := find?_decomp hfind
            have htidEq : target.id = tid := by
              simpa [beq_iff_eq] using List.find?_some hfind
            injection h with h1 h2
            rw [← h2, hsplit, removeFirst_append_middle
              (fun x hx => by rw [htidEq]; exact hclean x hx) (by simp)]
            rw [hsplit] at hlen
            simp only [List.length_append, List.length_cons] at hlen ⊢
            omega

/-- Accounts used in the delete-admin witness. -/
def acctC : Account :=
  { id := "3", name := "Aux", email := "aux@x.io", passwordHash := "bc-aux"
    isVerified := true, loginVerificationCodeHash := ""
    loginVerificationExpiresAt := none, resetPasswordTokenHash := ""
    resetPasswordExpiresAt := none }

/-- Witness for C7: with two accounts, requester "2" deletes account "3". -/
theorem deleteAdmin_spec_witness :
    ∃ l₁ l₂, [acctB, acctC] = l₁ ++ acctC :: l₂ ∧
      deleteAdmin [acctB, acctC] "3" "2" "ops@x.io" = (.ok, l₁ ++ l₂) ∧
      ∀ x ∈ l₁, (x.id == "3") = false :=
  (deleteAdmin_spec [acctB, acctC] "3" "2" "ops@x.io").2.2.1 acctC
    (by decide) (by decide) (by decide) (by decide)

/-! ### Email delivery gateway (lines 93-201) -/

/-- `emailSettings` override document fields (all optional; `""` = absent,
except `smtpSecure` where the source distinguishes `null` from a string). -/
structure EmailSettings where
  smtpHost : String
  smtpUser : String
  smtpPass : String
  smtpPort : Option Nat
  smtpSecure : Option String
  contactFromEmail : String
  deriving Repr, DecidableEq

/-- The environment variables the gateway reads. -/
structure EmailEnv where
  smtpHost : String
  smtpUser : String
  smtpPass : String
  emailUser : String
  emailPass : String
  smtpPort : Option Nat
  smtpSecure : Option String
  contactFromEmail : String
  resendApiKey : String
  deriving Repr, DecidableEq

/-- JavaScript `a || b` over strings (empty string is falsy). -/
def strOr (a b : String) : String := if a = "" then b else a

/-- `settings.smtpHost || process.env.SMTP_HOST` (line 94). -/
def resolvedHost (s : EmailSettings) (e : EmailEnv) : String :=
  strOr s.smtpHost e.smtpHost

/-- `settings.smtpUser || process.env.SMTP_USER || process.env.EMAIL_USER`
(line 95). -/
def resolvedUser (s : EmailSettings) (e : EmailEnv) : String :=
  strOr s.smtpUser (strOr e.smtpUser e.emailUser)

/-- `settings.smtpPass || process.env.SMTP_PASS || process.env.EMAIL_PASS`
(line 96). -/
def resolvedPass (s : EmailSettings) (e : EmailEnv) : String :=
  strOr s.smtpPass (strOr e.smtpPass e.emailPass)

/-- `Number(settings.smtpPort || process.env.SMTP_PORT || 587)` (line 107). -/
def resolvedPort (s : EmailSettings) (e : EmailEnv) : Nat :=
  match s.smtpPort with
  | some p => p
  | none =>
    match e.smtpPort with
    | some p => p
    | none => 587

/-- `String(v).toLowerCase() === "true"`. -/
def parseBoolStr (v : String) : Bool := lowerString v == "true"

/-- The `secure` inference of lines 108-113: settings override, else
environment override, else `port === 465`. -/
def resolvedSecure (s : EmailSettings) (e : EmailEnv) (port : Nat) : Bool :=
  match s.smtpSecure with
  | some v => parseBoolStr v
  | none =>
    match e.smtpSecure with
    | some v => parseBoolStr v
    | none => port == 465

/-- The transport `createTransporter` hands to nodemailer: the Gmail
service shorthand when no host resolves, else an explicit SMTP transport. -/
inductive Transporter where
  | gmailService (user pass : String)
  | smtp (host : String) (port : Nat) (secure : Bool) (user pass : String)
  deriving Repr, DecidableEq

/-- `createTransporter(settings)` (lines 93-122). -/
def createTransporter (s : EmailSettings) (e : EmailEnv) : Option Transporter :=
  if resolvedUser s e = "" ∨ resolvedPass s e = "" then none
  else if resolvedHost s e = "" then
    some (.gmailService (resolvedUser s e) (resolvedPass s e))
  else
    some (.smtp (resolvedHost s e) (resolvedPort s e)
      (resolvedSecure s e (resolvedPort s e)) (resolvedUser s e)
      (resolvedPass s e))

/-- Contiguous-subsequence check over character lists, so that JavaScript
`String.prototype.includes` evaluates in the kernel. -/
def listStartsWith : List Char → List Char → Bool
  | _, [] => true
  | [], _ :: _ => false
  | c :: cs, d :: ds => c == d && listStartsWith cs ds

def listContains (l sub : List Char) : Bool :=
  match l with
  | [] => sub.isEmpty
  | _ :: rest => listStartsWith l sub || listContains rest sub

/-- JavaScript `s.includes(sub)`. -/
def containsSubstr (s sub : String) : Bool := listContains s.data sub.data

/-- `getResendApiKey(settings)` (lines 124-133): the explicit API key, or
the SMTP password when the SMTP settings are Resend-shaped. -/
def getResendApiKey (s : EmailSettings) (e : EmailEnv) : String :=
  if e.resendApiKey ≠ "" then e.resendApiKey
  else
    let host := lowerString (strOr s.smtpHost e.smtpHost)
    let user := lowerString (strOr s.smtpUser e.smtpUser)
    let pass := strOr s.smtpPass e.smtpPass
    if containsSubstr host "resend.com" && (user == "resend") && (pass != "")
    then pass
    else ""

/-- The `from` resolution of `sendWithResend` (lines 139-144). -/
def resendFrom (s : EmailSettings) (e : EmailEnv) : String :=
  strOr s.contactFromEmail (strOr e.contactFromEmail
    (strOr s.smtpUser (strOr e.smtpUser e.emailUser)))

/-- Whether `sendWithResend` reports success (lines 135-165): an API key
and a sender must resolve, and the HTTP call must report ok
(`networkOk`). -/
def sendWithResendOk (s : EmailSettings) (e : EmailEnv) (networkOk : Bool) :
    Bool :=
  if getResendApiKey s e = "" then false
  else if resendFrom s e = "" then false
  else networkOk

/-- Which way `sendVerificationCode` (lines 176-201) delivered, if at all.
`notConfigured` is the `return false` of line 187. -/
inductive SendOutcome where
  | viaResend
  | viaTransporter (t : Transporter)
  | notConfigured
  deriving Repr, DecidableEq

/-- `sendVerificationCode(email, code)` (lines 176-201), abstracted over
the delivery outcome of the Resend HTTP call. -/
def sendVerificationCode (s : EmailSettings) (e : EmailEnv)
    (resendNetworkOk : Bool) : SendOutcome :=
  if sendWithResendOk s e resendNetworkOk then .viaResend
  else
    match createTransporter s e with
    | none => .notConfigured
    | some t => .viaTransporter t

/-- Settings with nothing configured, used in the C9 counterexample. -/
def settingsNoHost : EmailSettings :=
  { smtpHost := "", smtpUser := "", smtpPass := "", smtpPort := none
    smtpSecure := none, contactFromEmail := "" }

/-- Environment with only SMTP_USER and SMTP_PASS set. -/
def envUserPassOnly : EmailEnv :=
  { smtpHost := "", smtpUser := "mailer", smtpPass := "pw", emailUser := ""
    emailPass := "", smtpPort := none, smtpSecure := none
    contactFromEmail := "", resendApiKey := "" }

/-- Counterexample for C9 as stated: with user and password resolvable but
no host resolvable anywhere, the code still falls through to an
SMTP-capable transport (nodemailer's Gmail service default) instead of
reporting not-configured, so "exactly when host, user, and password are
all resolvable" is false. -/
theorem sendVerification_no_host_still_falls_through :
    resolvedHost settingsNoHost envUserPassOnly = "" ∧
      sendVerificationCode settingsNoHost envUserPassOnly true =
        .viaTransporter (.gmailService "mailer" "pw") := by
  decide

/-- C9 amended: Resend is tried first and wins whenever it reports
success; on non-success the handler falls through to an SMTP-capable
transport exactly when user and password are resolvable (a missing host
selects the Gmail service transport instead of failing); with a host the
port defaults to 587 and secure is true iff the port is 465 unless
explicitly overridden; when neither path is configured the outcome is the
returned-false not-configured signal, not an exception. -/
theorem sendVerification_fallback_spec (s : EmailSettings) (e : EmailEnv)
    (netOk : Bool) :
    (sendWithResendOk s e netOk = true →
      sendVerificationCode s e netOk = .viaResend)
    ∧ (sendWithResendOk s e netOk = false →
        ((sendVerificationCode s e netOk = .notConfigured ↔
            (resolvedUser s e = "" ∨ resolvedPass s e = ""))
        ∧ (resolvedUser s e ≠ "" → resolvedPass s e ≠ "" →
            resolvedHost s e ≠ "" →
            sendVerificationCode s e netOk =
              .viaTransporter (.smtp (resolvedHost s e) (resolvedPort s e)
                (resolvedSecure s e (resolvedPort s e)) (resolvedUser s e)
                (resolvedPass s e)))
        ∧ (resolvedUser s e ≠ "" → resolvedPass s e ≠ "" →
            resolvedHost s e = "" →
            sendVerificationCode s e netOk =
              .viaTransporter (.gmailService (resolvedUser s e)
                (resolvedPass s e)))))
    ∧ (s.smtpPort = none → e.smtpPort = none → resolvedPort s e = 587)
    ∧ (s.smtpSecure = none → e.smtpSecure = none →
        resolvedSecure s e (resolvedPort s e) = (resolvedPort s e == 465)) := by
  refine ⟨?_, ?_, ?_, ?_⟩
  · intro h
    simp [sendVerificationCode, h]
  · intro h
    refine ⟨?_, ?_, ?_⟩
    · by_cases hu : resolvedUser s e = ""
      · simp [sendVerificationCode, h, createTransporter, hu]
      · by_cases hp : resolvedPass s e = ""
        · simp [sendVerificationCode, h, createTransporter, hu, hp]
        · by_cases hh : resolvedHost s e = "" <;>
            simp [sendVerificationCode, h, createTransporter, hu, hp, hh]
    · intro hu hp hh
      simp [sendVerificationCode, h, createTransporter, hu, hp, hh]
    · intro hu hp hh
      simp [sendVerificationCode, h, createTransporter, hu, hp, hh]
  · intro hs he
    simp [resolvedPort, hs, he]
  · intro hs he
    simp [resolvedSecure, hs, he]

/-- Witness for the amended C9 at the counterexample configuration: the
Resend path is off, user/password resolve, host does not, and the Gmail
service transport is selected. -/
theorem sendVerification_fallback_spec_witness :
    sendVerificationCode settingsNoHost envUserPassOnly true =
      .viaTransporter (.gmailService (resolvedUser settingsNoHost envUserPassOnly)
        (resolvedPass settingsNoHost envUserPassOnly)) :=
  ((sendVerification_fallback_spec settingsNoHost envUserPassOnly true).2.1
    (by decide)).2.2 (by decide) (by decide) (by decide)

/-- Outcome of the login handler. -/
inductive LoginResult where
  | reject (status : Nat) (msg : String)
  | pending (status : Nat) (resp : VerResponse) (email : String)
  | ok (token : Token) (adminName : String) (msg : Option String)
  deriving Repr, DecidableEq

/-- `POST /admin/login` (lines 402-457), after `ensureSeedAdmins` has run
(seeding is modelled separately).  `newCode` is the freshly generated
6-digit code, `sendOk` the outcome of `sendVerificationCode`. -/
def loginHandler (H : Hasher) (sha : String → String) (envJwt : String)
    (requireVerification : Bool) (nodeEnv : String) (store : List Account)
    (rawEmail password newCode : String) (sendOk : Bool) (now : Nat) :
    LoginResult × List Account :=
  if rawEmail = "" ∨ password = "" then
    (.reject 400 "Email and password are required", store)
  else
    let email := normalizeEmail rawEmail
    match store.find? (fun a => a.email == email) with
    | none => (.reject 401 "Invalid credentials", store)
    | some admin =>
      if H.compare password admin.passwordHash = false then
        (.reject 401 "Invalid credentials", store)
      else if admin.isVerified = false then
        let admin1 := { admin with
          loginVerificationCodeHash := sha newCode
          loginVerificationExpiresAt := some (now + loginCodeTtlMs) }
        let store1 := updateFirst (fun a => a.email == email) (fun _ => admin1) store
        if sendOk = false ∧ requireVerification = false then
          let store2 := updateFirst (fun a => a.email == email)
            (fun _ => clearLoginCode admin1) store1
          (.ok { email := admin.email, role := "admin", id := admin.id
                 key := jwtSecret envJwt, expiresIn := "1d" }
            admin.name (some "Logged in (SMTP not configured)."), store2)
        else
          (.pending 403 (formatVerificationResponse nodeEnv
              "Verification required. Code sent to your email." sendOk newCode)
            admin.email, store1)
      else
        (.ok { email := admin.email, role := "admin", id := admin.id
               key := jwtSecret envJwt, expiresIn := "1d" }
          admin.name none, store)

/-- C10: every session token issued by the login handler (verified branch
or missing-SMTP bypass branch) and by verify-login carries the single
process-wide signing key `process.env.JWT_SECRET || "secretkey"`, so with
the variable unset every token of every account is signed with the literal
"secretkey". -/
theorem jwt_signing_key_uniform (H : Hasher) (sha : String → String)
    (envJwt : String) (requireVerification : Bool) (nodeEnv : String)
    (store store' : List Account) (rawEmail password newCode rawE rawC : String)
    (sendOk : Bool) (now now' : Nat) :
    (∀ tok nm msg ns, loginHandler H sha envJwt requireVerification nodeEnv
        store rawEmail password newCode sendOk now = (.ok tok nm msg, ns) →
      tok.key = jwtSecret envJwt)
    ∧ (∀ ns tok, verifyLogin sha envJwt store' rawE rawC now' = .ok ns tok →
      tok.key = jwtSecret envJwt)
    ∧ jwtSecret "" = "secretkey" := by
  refine ⟨?_, ?_, rfl⟩
  · intro tok nm msg ns h
    simp only [loginHandler] at h
    split at h
    · exact absurd h (by simp)
    · split at h
      · exact absurd h (by simp)
      · split at h
        · exact absurd h (by simp)
        · split at h
          · split at h
            · simp only [Prod.mk.injEq, LoginResult.ok.injEq] at h
              rw [← h.1.1]
            · exact absurd h (by simp)
          · simp only [Prod.mk.injEq, LoginResult.ok.injEq] at h
            rw [← h.1.1]
  · intro ns tok h
    simp only [verifyLogin] at h
    split at h
    · exact absurd h (by simp)
    · split at h
      · exact absurd h (by simp)
      · split at h
        · injection h with h1 h2
          rw [← h2]
        · exact absurd h (by simp)

/-- Witness for C10: the token of a concrete verify-login success with
JWT_SECRET unset carries the key "secretkey". -/
theorem jwt_signing_key_uniform_witness :
    ({ email := "admin@x.io", role := "admin", id := "1", key := "secretkey"
       expiresIn := "1d" } : Token).key = jwtSecret "" :=
  (jwt_signing_key_uniform ⟨fun s => "bc-" ++ s, fun p h => ("bc-" ++ p) == h⟩
    shaTest "" false "dev" [] [acctA] "" "" "" "admin@x.io" "123456" false 0 0).2.1
    [clearLoginCode acctA]
    { email := "admin@x.io", role := "admin", id := "1", key := "secretkey"
      expiresIn := "1d" } (by decide)

/-! ### Seed reconciliation (`ensureSeedAdmins`, lines 30-82) -/

/-- One configured seed entry (`{email, password, name, forceSync}`). -/
structure Seed where
  email : String
  password : String
  name : String
  forceSync : Bool
  deriving Repr, DecidableEq

/-- The `findOne({ email })` predicate of the reconciler (line 46). -/
def seedEmailLookup (em : String) (a : Account) : Bool := a.email == em

/-- The account `Admin.create` builds for a missing seed (lines 72-80);
the store assigns the fresh id. -/
def newSeedAccount (H : Hasher) (seed : Seed) (newId : String) : Account :=
  { id := newId, name := seed.name, email := normalizeEmail seed.email
    passwordHash := H.hash seed.password, isVerified := true
    loginVerificationCodeHash := "", loginVerificationExpiresAt := none
    resetPasswordTokenHash := "", resetPasswordExpiresAt := none }

/-- The document state after the force-sync drift repair saves (lines
48-67): password rehashed only on compare failure, name and verified flag
forced, login-code hash/expiry cleared by the save branch. -/
def syncedSeedAccount (H : Hasher) (seed : Seed) (existing : Account) :
    Account :=
  { existing with
      passwordHash :=
        if H.compare seed.password existing.passwordHash then
          existing.passwordHash
        else H.hash seed.password
      name := seed.name
      isVerified := true
      loginVerificationCodeHash := ""
      loginVerificationExpiresAt := none }

/-- The `shouldSave` drift detection of lines 50-62. -/
def seedShouldSave (H : Hasher) (seed : Seed) (existing : Account) : Bool :=
  !H.compare seed.password existing.passwordHash ||
    !(existing.name == seed.name) || !existing.isVerified

/-- Processing of one seed entry (loop body, lines 43-81).  Result: the
store, the next fresh id, and the number of store writes performed. -/
def processSeed (H : Hasher) (store : List Account) (nextId : Nat)
    (seed : Seed) : List Account × Nat × Nat :=
  if seed.email = "" ∨ seed.password = "" then (store, nextId, 0)
  else
    let em := normalizeEmail seed.email
    match store.find? (seedEmailLookup em) with
    | some existing =>
      if seed.forceSync then
        if seedShouldSave H seed existing then
          (updateFirst (seedEmailLookup em)
            (fun _ => syncedSeedAccount H seed existing) store, nextId, 1)
        else (store, nextId, 0)
      else (store, nextId, 0)
    | none =>
      (store ++ [newSeedAccount H seed (toString nextId)], nextId + 1, 1)

/-- `ensureSeedAdmins()` over an explicit list of seeds (the parsed
`ADMIN_ACCOUNTS` list or the single env/default seed). -/
def ensureSeedAdmins (H : Hasher) (seeds : List Seed) (store : List Account)
    (nextId : Nat) : List Account × Nat × Nat :=
  match seeds with
  | [] => (store, nextId, 0)
  | s :: rest =>
    let r1 := processSeed H store nextId s
    let r2 := ensureSeedAdmins H rest r1.1 r1.2.1
    (r2.1, r2.2.1, r1.2.2 + r2.2.2)

/-- A seed entry is settled in a store: it is skipped (missing email or
password), or the email lookup finds a document that (under forceSync)
already passes all three drift checks. -/
def seedDone (H : Hasher) (s : Seed) (store : List Account) : Prop :=
  s.email = "" ∨ s.password = "" ∨
    ∃ a, store.find? (seedEmailLookup (normalizeEmail s.email)) = some a ∧
      (s.forceSync = true →
        H.compare s.password a.passwordHash = true ∧ a.name = s.name ∧
          a.isVerified = true)

theorem processSeed_of_done {H : Hasher} {s : Seed} {store : List Account}
    {n : Nat} (hd : seedDone H s store) :
    processSeed H store n s = (store, n, 0) := by
  by_cases hcond : s.email = "" ∨ s.password = ""
  · simp [processSeed, hcond]
  · rcases hd with he | hp | ⟨a, hfind, hsync⟩
    · exact absurd (Or.inl he) hcond
    · exact absurd (Or.inr hp) hcond
    · simp only [processSeed]
      rw [if_neg hcond, hfind]
      simp only
      by_cases hforce : s.forceSync
      · rw [if_pos hforce]
        obtain ⟨hcmp, hname, hver⟩ := hsync hforce
        have hsave : seedShouldSave H s a = false := by
          simp [seedShouldSave, hcmp, hname, hver]
        rw [hsave]
        simp
      · rw [if_neg hforce]

theorem processSeed_establishes_done {H : Hasher} {s : Seed}
    {store : List Account} {n : Nat}
    (hH : ∀ p, H.compare p (H.hash p) = true) :
    seedDone H s (processSeed H store n s).1 := by
  by_cases hcond : s.email = "" ∨ s.password = ""
  · rcases hcond with h | h
    · exact Or.inl h
    · exact Or.inr (Or.inl h)
  · simp only [processSeed]
    rw [if_neg hcond]
    cases hfind : store.find? (seedEmailLookup (normalizeEmail s.email)) with
    | some existing =>
      simp only
      by_cases hforce : s.forceSync
      · rw [if_pos hforce]
        by_cases hsave : seedShouldSave H s existing = true
        · rw [hsave]
          simp only [if_true]
          obtain ⟨l₁, l₂, hsplit, hclean⟩ := find?_decomp hfind
          have hpa := List.find?_some hfind
          subst hsplit
          rw [updateFirst_append_middle hclean hpa]
          refine Or.inr (Or.inr ⟨syncedSeedAccount H s existing, ?_, ?_⟩)
          · refine find?_append_middle hclean ?_
            simpa [seedEmailLookup, syncedSeedAccount] using hpa
          · intro _
            refine ⟨?_, rfl, rfl⟩
            by_cases hpw : H.compare s.password existing.passwordHash
            · simp [syncedSeedAccount, hpw]
            · simp [syncedSeedAccount, hpw, hH]
        · rw [Bool.not_eq_true] at hsave
          rw [hsave]
          simp only [Bool.false_eq_true, if_false]
          simp only [seedShouldSave, Bool.or_eq_false_iff, Bool.not_eq_true',
            beq_iff_eq, Bool.not_eq_eq_eq_not, Bool.not_false] at hsave
          refine Or.inr (Or.inr ⟨existing, hfind, fun _ => ?_⟩)
          exact ⟨hsave.1.1, hsave.1.2, hsave.2⟩
      · rw [if_neg hforce]
        refine Or.inr (Or.inr ⟨existing, hfind, fun hf => absurd hf hforce⟩)
    | none =>
      simp only
      refine Or.inr (Or.inr ⟨newSeedAccount H s (toString n), ?_, ?_⟩)
      · rw [List.find?_append, hfind]
        simp [List.find?_cons, seedEmailLookup, newSeedAccount]
      · intro _
        exact ⟨hH s.password, rfl, rfl⟩

theorem processSeed_preserves_done {H : Hasher} {s t : Seed}
    {store : List Account} {n : Nat}
    (hne : normalizeEmail t.email ≠ normalizeEmail s.email)
    (hd : seedDone H s store) :
    seedDone H s (processSeed H store n t).1 := by
  rcases hd with he | hp | ⟨a, hfind, hsync⟩
  · exact Or.inl he
  · exact Or.inr (Or.inl hp)
  · by_cases hcond : t.email = "" ∨ t.password = ""
    · simp only [processSeed]
      rw [if_pos hcond]
      exact Or.inr (Or.inr ⟨a, hfind, hsync⟩)
    · simp only [processSeed]
      rw [if_neg hcond]
      cases hfindt : store.find? (seedEmailLookup (normalizeEmail t.email)) with
      | some ex =>
        simp only
        by_cases hforce : t.forceSync
        · rw [if_pos hforce]
          by_cases hsave : seedShouldSave H t ex = true
          · rw [hsave]
            simp only [if_true]
            obtain ⟨l₁, l₂, hsplit, hclean⟩ := find?_decomp hfindt
            have hpat := List.find?_some hfindt
            subst hsplit
            rw [updateFirst_append_middle hclean hpat]
            have hexm : ex.email = normalizeEmail t.email := by
              simpa [seedEmailLookup, beq_iff_eq] using hpat
            have hpredex : seedEmailLookup (normalizeEmail s.email) ex = false := by
              simp [seedEmailLookup, hexm, hne]
            have hpredupd :
                seedEmailLookup (normalizeEmail s.email)
                  (syncedSeedAccount H t ex) = false := by
              simp [seedEmailLookup, syncedSeedAccount, hexm, hne]
            refine Or.inr (Or.inr ⟨a, ?_, hsync⟩)
            rw [find?_congr_middle hpredupd hpredex]
            exact hfind
          · rw [Bool.not_eq_true] at hsave
            rw [hsave]
            simp only [Bool.false_eq_true, if_false]
            exact Or.inr (Or.inr ⟨a, hfind, hsync⟩)
        · rw [if_neg hforce]
          exact Or.inr (Or.inr ⟨a, hfind, hsync⟩)
      | none =>
        simp only
        refine Or.inr (Or.inr ⟨a, ?_, hsync⟩)
        rw [List.find?_append, hfind]
        rfl

theorem ensureSeedAdmins_of_all_done {H : Hasher} {seeds : List Seed}
    {store : List Account} {n : Nat}
    (hall : ∀ s ∈ seeds, seedDone H s store) :
    ensureSeedAdmins H seeds store n = (store, n, 0) := by
  induction seeds with
  | nil => rfl
  | cons t rest ih =>
    have h1 : processSeed H store n t = (store, n, 0) :=
      processSeed_of_done (hall t (List.mem_cons_self t rest))
    simp only [ensureSeedAdmins, h1]
    rw [ih fun s hs => hall s (List.mem_cons_of_mem t hs)]
    simp

theorem ensureSeedAdmins_preserves_done {H : Hasher} {s : Seed}
    {seeds : List Seed} {store : List Account} {n : Nat}
    (hne : ∀ t ∈ seeds, normalizeEmail t.email ≠ normalizeEmail s.email)
    (hd : seedDone H s store) :
    seedDone H s (ensureSeedAdmins H seeds store n).1 := by
  induction seeds generalizing store n with
  | nil => exact hd
  | cons t rest ih =>
    simp only [ensureSeedAdmins]
    exact ih (fun u hu => hne u (List.mem_cons_of_mem t hu))
      (processSeed_preserves_done (hne t (List.mem_cons_self t rest)) hd)

theorem ensureSeedAdmins_establishes_done {H : Hasher} {seeds : List Seed}
    {store : List Account} {n : Nat}
    (hH : ∀ p, H.compare p (H.hash p) = true)
    (hnodup : (seeds.map fun s => normalizeEmail s.email).Nodup) :
    ∀ s ∈ seeds, seedDone H s (ensureSeedAdmins H seeds store n).1 := by
  induction seeds generalizing store n with
  | nil =>
    intro s hs
    cases hs
  | cons t rest ih =>
    intro s hs
    rw [List.map_cons, List.nodup_cons] at hnodup
    simp only [ensureSeedAdmins]
    rcases List.mem_cons.mp hs with rfl | hs₂
    · refine ensureSeedAdmins_preserves_done ?_ (processSeed_establishes_done hH)
      intro u hu heq
      exact hnodup.1 (heq ▸ List.mem_map_of_mem (fun x => normalizeEmail x.email) hu)
    · exact ih hnodup.2 s hs₂

/-- C4: given a sound password hasher and a well-formed seed configuration
(entries with pairwise distinct normalised emails), a second run of
`ensureSeedAdmins` directly after a first run performs zero store writes
and leaves the store and id counter exactly as the first run left them. -/
theorem ensureSeedAdmins_idempotent (H : Hasher) (seeds : List Seed)
    (store : List Account) (n : Nat)
    (hH : ∀ p, H.compare p (H.hash p) = true)
    (hnodup : (seeds.map fun s => normalizeEmail s.email).Nodup) :
    ensureSeedAdmins H seeds (ensureSeedAdmins H seeds store n).1
        (ensureSeedAdmins H seeds store n).2.1 =
      ((ensureSeedAdmins H seeds store n).1,
        (ensureSeedAdmins H seeds store n).2.1, 0) :=
  ensureSeedAdmins_of_all_done fun s hs =>
    ensureSeedAdmins_establishes_done hH hnodup s hs

/-- A concrete sound hasher for witnesses. -/
def bcTest : Hasher := ⟨fun s => "bc-" ++ s, fun p h => ("bc-" ++ p) == h⟩

/-- A concrete forced seed entry. -/
def seedRoot : Seed :=
  { email := "root@x.io", password := "pw1", name := "Root", forceSync := true }

/-- Witness for C4: reconciling `[seedRoot]` into an empty store and then
reconciling again performs no write the second time. -/
theorem ensureSeedAdmins_idempotent_witness :
    ensureSeedAdmins bcTest [seedRoot]
        (ensureSeedAdmins bcTest [seedRoot] [] 0).1
        (ensureSeedAdmins bcTest [seedRoot] [] 0).2.1 =
      ((ensureSeedAdmins bcTest [seedRoot] [] 0).1,
        (ensureSeedAdmins bcTest [seedRoot] [] 0).2.1, 0) :=
  ensureSeedAdmins_idempotent bcTest [seedRoot] [] 0
    (fun p => by simp [bcTest]) (by decide)
